import Mathlib

/-!
Shallow embedding of the arbitrage opportunity engine of the `autofutures`
repository (backend/services/arbitrage_scanner.py, arbitrage_analyzer.py,
profit_calculator.py, trade_engine.py and backend/utils/exchange_config.py).

Python floats are modelled as exact rationals (`ℚ`); Python's `round`
(banker's rounding to `n` decimal digits) is modelled by `pyRound`;
Python dicts keyed by strings are modelled as association lists.
-/

/-- Round-half-to-even on a rational, as Python's builtin `round` does for the
integer part of the scaled value. -/
def roundHalfEven (x : ℚ) : ℤ :=
  let f := ⌊x⌋
  let r := x - f
  if r < 1/2 then f
  else if 1/2 < r then f + 1
  else if f % 2 = 0 then f else f + 1

/-- Python's `round(x, n)` on exact rationals. -/
def pyRound (x : ℚ) (n : ℕ) : ℚ := (roundHalfEven (x * 10 ^ n) : ℚ) / 10 ^ n

namespace AutoFutures

/-! ## backend/utils/exchange_config.py -/

/-- One entry of `SUPPORTED_EXCHANGES` (backend/utils/exchange_config.py).
Fee percentages are kept as rationals; withdrawal fees are an association
list from coin symbol to fee in coin units. -/
structure ExchangeConfig where
  name : String
  tier : ℕ
  maker : ℚ
  taker : ℚ
  withdrawal_fees : List (String × ℚ)
  deposit_time : ℕ
  withdrawal_time : ℕ
  min_order : ℚ
  max_order : ℚ
deriving DecidableEq

def binance_config : ExchangeConfig :=
  { name := "Binance", tier := 1, maker := 1/10, taker := 1/10,
    withdrawal_fees := [("BTC", 5/10000), ("ETH", 5/1000), ("USDT", 1), ("BNB", 1/100)],
    deposit_time := 60, withdrawal_time := 300, min_order := 10, max_order := 1000000 }

def bybit_config : ExchangeConfig :=
  { name := "Bybit", tier := 1, maker := 1/10, taker := 1/10,
    withdrawal_fees := [("BTC", 5/10000), ("ETH", 5/1000), ("USDT", 1)],
    deposit_time := 60, withdrawal_time := 300, min_order := 10, max_order := 500000 }

def okx_config : ExchangeConfig :=
  { name := "OKX", tier := 1, maker := 8/100, taker := 1/10,
    withdrawal_fees := [("BTC", 4/10000), ("ETH", 3/1000), ("USDT", 8/10)],
    deposit_time := 50, withdrawal_time := 250, min_order := 10, max_order := 800000 }

def gateio_config : ExchangeConfig :=
  { name := "Gate.io", tier := 2, maker := 2/10, taker := 2/10,
    withdrawal_fees := [("BTC", 1/1000), ("ETH", 1/100), ("USDT", 2)],
    deposit_time := 70, withdrawal_time := 350, min_order := 10, max_order := 300000 }

def kucoin_config : ExchangeConfig :=
  { name := "KuCoin", tier := 2, maker := 1/10, taker := 1/10,
    withdrawal_fees := [("BTC", 5/10000), ("ETH", 5/1000), ("USDT", 1)],
    deposit_time := 60, withdrawal_time := 300, min_order := 10, max_order := 400000 }

def kraken_config : ExchangeConfig :=
  { name := "Kraken", tier := 1, maker := 16/100, taker := 26/100,
    withdrawal_fees := [("BTC", 15/100000), ("ETH", 35/10000), ("USDT", 5)],
    deposit_time := 90, withdrawal_time := 400, min_order := 10, max_order := 500000 }

def huobi_config : ExchangeConfig :=
  { name := "Huobi", tier := 2, maker := 2/10, taker := 2/10,
    withdrawal_fees := [("BTC", 5/10000), ("ETH", 4/1000), ("USDT", 2)],
    deposit_time := 65, withdrawal_time := 320, min_order := 10, max_order := 350000 }

def bitfinex_config : ExchangeConfig :=
  { name := "Bitfinex", tier := 2, maker := 1/10, taker := 2/10,
    withdrawal_fees := [("BTC", 4/10000), ("ETH", 27/10000), ("USDT", 3)],
    deposit_time := 80, withdrawal_time := 380, min_order := 10, max_order := 600000 }

def coinbase_config : ExchangeConfig :=
  { name := "Coinbase Pro", tier := 1, maker := 4/10, taker := 6/10,
    withdrawal_fees := [("BTC", 0), ("ETH", 0), ("USDT", 0)],
    deposit_time := 100, withdrawal_time := 500, min_order := 10, max_order := 1000000 }

def bitget_config : ExchangeConfig :=
  { name := "Bitget", tier := 2, maker := 1/10, taker := 1/10,
    withdrawal_fees := [("BTC", 5/10000), ("ETH", 5/1000), ("USDT", 1)],
    deposit_time := 60, withdrawal_time := 300, min_order := 10, max_order := 300000 }

/-- The `SUPPORTED_EXCHANGES` dictionary, as an association list. -/
def SUPPORTED_EXCHANGES : List (String × ExchangeConfig) :=
  [("binance", binance_config), ("bybit", bybit_config), ("okx", okx_config),
   ("gateio", gateio_config), ("kucoin", kucoin_config), ("kraken", kraken_config),
   ("huobi", huobi_config), ("bitfinex", bitfinex_config), ("coinbase", coinbase_config),
   ("bitget", bitget_config)]

/-- Embedding of `get_exchange_config` (exchange_config.py): `SUPPORTED_EXCHANGES.get(exchange_id)`. -/
def get_exchange_config (exchange_id : String) : Option ExchangeConfig :=
  SUPPORTED_EXCHANGES.lookup exchange_id

/-- Embedding of `config['withdrawal_fees'].get(coin, 0)`. -/
def wf_get (fees : List (String × ℚ)) (coin : String) : ℚ :=
  (fees.lookup coin).getD 0

/-! ## ArbitrageScanner (backend/services/arbitrage_scanner.py) -/

/-- Detail fields of the dict returned by `ArbitrageScanner._calculate_fees`
when both exchange configs exist. -/
structure ScannerFeeDetails where
  buy_fee : ℚ
  sell_fee : ℚ
  withdrawal_fee : ℚ
  network_fee : ℚ
deriving DecidableEq

/-- Result of `ArbitrageScanner._calculate_fees`.  The source returns a dict
with only the key `total_fees` (value `0`) when either exchange config is
missing, and the full five-key dict otherwise; `details` is `none` exactly in
the first case. -/
structure ScannerFees where
  details : Option ScannerFeeDetails
  total_fees : ℚ
deriving DecidableEq

/-- Embedding of `ArbitrageScanner._calculate_fees` (arbitrage_scanner.py lines 304-338). -/
def calculate_fees (buy_exchange sell_exchange coin : String) (order_size price : ℚ) :
    ScannerFees :=
  match get_exchange_config buy_exchange, get_exchange_config sell_exchange with
  | some buy_config, some sell_config =>
    let buy_fee := (order_size * buy_config.taker) / 100
    let sell_fee := (order_size * sell_config.taker) / 100
    let withdrawal_fee_crypto := wf_get buy_config.withdrawal_fees coin
    let withdrawal_fee_usdt := withdrawal_fee_crypto * price
    let network_fee : ℚ := 1/2
    let total := buy_fee + sell_fee + withdrawal_fee_usdt + network_fee
    ⟨some ⟨buy_fee, sell_fee, withdrawal_fee_usdt, network_fee⟩, total⟩
  | _, _ => ⟨none, 0⟩

/-- Dict returned by `ArbitrageScanner._calculate_net_profit`. -/
structure NetProfit where
  gross_profit : ℚ
  net_profit : ℚ
  profit_percent : ℚ
  is_profitable : Bool
deriving DecidableEq

/-- Embedding of `ArbitrageScanner._calculate_net_profit` (arbitrage_scanner.py lines 340-357). -/
def calculate_net_profit (order_size buy_price sell_price : ℚ) (fees : ScannerFees) :
    NetProfit :=
  let gross_profit := ((sell_price - buy_price) / buy_price) * order_size
  let net_profit := gross_profit - fees.total_fees
  let profit_percent := (net_profit / order_size) * 100
  ⟨gross_profit, net_profit, profit_percent, decide (0 < net_profit)⟩

/-- Embedding of `ArbitrageScanner._estimate_execution_time` (arbitrage_scanner.py lines 359-372). -/
def estimate_execution_time (buy_exchange sell_exchange : String) : ℕ :=
  match get_exchange_config buy_exchange, get_exchange_config sell_exchange with
  | some buy_config, some sell_config =>
      5 + buy_config.withdrawal_time + sell_config.deposit_time + 5
  | _, _ => 600

/-- Embedding of `ArbitrageScanner._quick_network_check` (arbitrage_scanner.py lines 374-379). -/
def quick_network_check (coin : String) : Bool :=
  ["BTC", "ETH", "USDT", "BNB", "SOL"].contains coin

/-- A per-exchange price entry as produced by `_fetch_single_price`
(timestamp dropped). -/
structure Quote where
  bid : ℚ
  ask : ℚ
  last : ℚ
  volume : ℚ
deriving DecidableEq

/-- An opportunity record as built in `_find_opportunities`
(timestamp dropped). -/
structure Opportunity where
  coin : String
  buy_exchange : String
  sell_exchange : String
  buy_price : ℚ
  sell_price : ℚ
  raw_spread_percent : ℚ
  net_profit_percent : ℚ
  net_profit_usdt : ℚ
  total_fees : ℚ
  execution_time_seconds : ℕ
  volume_buy : ℚ
  volume_sell : ℚ
  status : String
deriving DecidableEq

/-- The body of the innermost `for direction in [...]` loop of
`ArbitrageScanner._find_opportunities` (lines 249-300): evaluate one
directional candidate, returning `none` where the source `continue`s. -/
def eval_candidate (coin : String) (min_spread order_size : ℚ) (check_network : Bool)
    (buy sell : String × Quote) : Option Opportunity :=
  let buy_price := buy.2.ask
  let sell_price := sell.2.bid
  if buy_price ≤ 0 ∨ sell_price ≤ 0 then none
  else
    let spread_percent := ((sell_price - buy_price) / buy_price) * 100
    if spread_percent < min_spread then none
    else
      let fees := calculate_fees buy.1 sell.1 coin order_size buy_price
      let net_profit := calculate_net_profit order_size buy_price sell_price fees
      if net_profit.profit_percent < 0 then none
      else if check_network ∧ ¬ quick_network_check coin then none
      else some
        { coin := coin
          buy_exchange := buy.1
          sell_exchange := sell.1
          buy_price := pyRound buy_price 8
          sell_price := pyRound sell_price 8
          raw_spread_percent := pyRound spread_percent 3
          net_profit_percent := pyRound net_profit.profit_percent 3
          net_profit_usdt := pyRound net_profit.net_profit 2
          total_fees := pyRound fees.total_fees 2
          execution_time_seconds := estimate_execution_time buy.1 sell.1
          volume_buy := buy.2.volume
          volume_sell := sell.2.volume
          status := "active" }

/-- The two outer pair loops of `_find_opportunities` (lines 242-243):
`for i, a in enumerate(l): for b in l[i+1:]` — each unordered pair once. -/
def unordered_pairs {α : Type} : List α → List (α × α)
  | [] => []
  | x :: xs => xs.map (fun y => (x, y)) ++ unordered_pairs xs

/-- The pair loops together with the inner
`for direction in [(a, b), (b, a)]` loop (lines 245-248): every unordered
pair expanded into its two trade directions, in source order. -/
def directed_pairs {α : Type} (l : List α) : List (α × α) :=
  (unordered_pairs l).flatMap (fun p => [(p.1, p.2), (p.2, p.1)])

/-- Embedding of `ArbitrageScanner._find_opportunities` (lines 223-302) as a pure function
of the price matrix `{coin: {exchange: quote}}`. -/
def find_opportunities (prices : List (String × List (String × Quote)))
    (min_spread order_size : ℚ) (check_network : Bool) : List Opportunity :=
  prices.flatMap (fun cp =>
    if cp.2.length < 2 then []
    else (directed_pairs cp.2).filterMap
      (fun d => eval_candidate cp.1 min_spread order_size check_network d.1 d.2))

/-- Embedding of `ArbitrageScanner.manual_scan` (lines 381-408) given the already-fetched
price matrix: returns `[]` for an empty matrix, otherwise the scan result
with `check_network=True`, unchanged. -/
def manual_scan (prices : List (String × List (String × Quote)))
    (min_spread order_size : ℚ) : List Opportunity :=
  if prices.isEmpty then []
  else find_opportunities prices min_spread order_size true

/-- The comparison used by `get_opportunities`:
`sorted(key=net_profit_percent, reverse=True)` keeps `a` before `b`
when `a`'s key is at least `b`'s. -/
def opp_ge (a b : Opportunity) : Bool :=
  decide (b.net_profit_percent ≤ a.net_profit_percent)

/-- Embedding of `ArbitrageScanner.get_opportunities` (lines 69-78) on a cached list:
stable descending sort by `net_profit_percent`, truncated to `limit`. -/
def get_opportunities (cache : List Opportunity) (limit : ℕ) : List Opportunity :=
  (cache.mergeSort opp_ge).take limit

/-! ## The continuous scan loop (`ArbitrageScanner._scan_loop`, lines 108-158) -/

/-- Outcome of one iteration of the scan loop: a successful scan, an empty
price matrix, or an exception. -/
inductive CycleOutcome where
  | success (opps : List Opportunity)
  | emptyPrices
  | failure
deriving DecidableEq

/-- Effect of one loop iteration on the `consecutive_errors` counter:
reset to `0` on success (line 142), incremented otherwise
(lines 127 and 152). -/
def scan_cycle_errors (consecutive_errors : ℕ) (o : CycleOutcome) : ℕ :=
  match o with
  | .success _ => 0
  | .emptyPrices => consecutive_errors + 1
  | .failure => consecutive_errors + 1

/-- Embedding of `max_errors` (line 119). -/
def max_errors : ℕ := 5

/-- The `while consecutive_errors < max_errors` loop run against a finite
script of cycle outcomes.  Returns the final counter value and the number of
cycles actually executed. -/
def scan_loop_run : ℕ → List CycleOutcome → ℕ × ℕ
  | ce, [] => (ce, 0)
  | ce, o :: rest =>
    if max_errors ≤ ce then (ce, 0)
    else
      let r := scan_loop_run (scan_cycle_errors ce o) rest
      (r.1, r.2 + 1)

/-- The post-loop tear-down (lines 155-158): when the loop exited with
`consecutive_errors >= max_errors`, the user is deleted from the
`active_scans` registry (modelled as the list of registered user ids). -/
def scan_session_after (registry : List String) (user_id : String) (final_errors : ℕ) :
    List String :=
  if max_errors ≤ final_errors then
    if user_id ∈ registry then registry.erase user_id else registry
  else registry

/-- The `is_scanning` field of `get_scan_status` (lines 80-106):
`False` iff the user is not in `active_scans`. -/
def get_scan_status_is_scanning (registry : List String) (user_id : String) : Bool :=
  decide (user_id ∈ registry)

/-! ## TradeEngine (backend/services/trade_engine.py) -/

/-- Embedding of `LogType` (backend/models/schemas.py). -/
inductive LogKind where
  | info | success | error | warning | search | buy | sell | transfer | profit
deriving DecidableEq

/-- Embedding of `TradeEngine._add_log` (lines 283-299) acting on one user's log list:
insert at index 0, then truncate to the first 100 entries when the cap is
exceeded. -/
def add_log {α : Type} (logs : List α) (entry : α) : List α :=
  let l := entry :: logs
  if 100 < l.length then l.take 100 else l

/-- The `latest_logs` field of `TradeEngine.get_live_updates`
(lines 379-391): the first 10 entries of the (newest-first) log list. -/
def latest_logs {α : Type} (logs : List α) : List α :=
  logs.take 10

/-- An active/completed trade record as built in `_execute_arbitrage`
(timestamps dropped). -/
structure Trade where
  id : String
  coin : String
  trade_type : String
  entry_price : ℚ
  current_price : ℚ
  amount : ℚ
  pnl : ℚ
  pnl_percent : ℚ
  status : String
  exchanges : List String
  exit_price : Option ℚ
deriving DecidableEq

/-- The per-user mutable state of `TradeEngine` touched by
`_execute_arbitrage`: active trades, history, PnL accumulator and log list. -/
structure EngineState where
  active_trades : List Trade
  trade_history : List Trade
  total_pnl : ℚ
  trades_count : ℕ
  logs : List LogKind
deriving DecidableEq

/-- Which leg of the simulated cycle fails, if any. -/
inductive LegOutcome where
  | ok | buyFail | transferFail | sellFail
deriving DecidableEq

/-- The `active_trade` dict built at lines 148-162 of `_execute_arbitrage`
(timestamps dropped, strategy label normalised to "arbitrage"). -/
def in_flight_trade (trade_id coin buy_exchange sell_exchange : String)
    (buy_price order_size : ℚ) : Trade :=
  { id := trade_id, coin := coin, trade_type := "arbitrage",
    entry_price := buy_price, current_price := buy_price, amount := order_size / buy_price,
    pnl := 0, pnl_percent := 0, status := "active",
    exchanges := [buy_exchange, sell_exchange], exit_price := none }

/-- Embedding of `TradeEngine._execute_arbitrage` (lines 132-237) as a state
transformer, parameterised by the generated trade id and by which simulated
leg fails.  A buy-leg failure is caught by the inner `try` (lines 172-180):
error log, record removed, return.  A transfer failure propagates to the
outer `try` (lines 235-237): error log only.  A sell-leg failure is caught
by the inner `try` (lines 197-204): error log, return — the record is not
removed. -/
def execute_arbitrage (st : EngineState) (trade_id coin buy_exchange sell_exchange : String)
    (buy_price sell_price order_size : ℚ) (outcome : LegOutcome) : EngineState :=
  let amount := order_size / buy_price
  let active_trade : Trade :=
    in_flight_trade trade_id coin buy_exchange sell_exchange buy_price order_size
  let st := { st with active_trades := st.active_trades ++ [active_trade] }
  let st := { st with logs := add_log st.logs .buy }
  match outcome with
  | .buyFail =>
      let st := { st with logs := add_log st.logs .error }
      { st with active_trades := st.active_trades.erase active_trade }
  | .transferFail =>
      let st := { st with logs := add_log st.logs .transfer }
      { st with logs := add_log st.logs .error }
  | .sellFail =>
      let st := { st with logs := add_log st.logs .transfer }
      let st := { st with logs := add_log st.logs .sell }
      { st with logs := add_log st.logs .error }
  | .ok =>
      let st := { st with logs := add_log st.logs .transfer }
      let st := { st with logs := add_log st.logs .sell }
      let profit_usd := (sell_price - buy_price) * amount
      let profit_percent := ((sell_price - buy_price) / buy_price) * 100
      let st := { st with total_pnl := st.total_pnl + profit_usd,
                          trades_count := st.trades_count + 1 }
      let completed_trade :=
        { active_trade with exit_price := some sell_price, pnl := profit_usd,
                            pnl_percent := profit_percent, status := "completed" }
      let st := { st with active_trades := st.active_trades.erase active_trade,
                          trade_history := st.trade_history ++ [completed_trade] }
      { st with logs := add_log st.logs .profit }

/-- The guard of `TradeEngine.start_trading` (lines 28-61): raises only when
the bot is already running; no validation of exchanges, coin or order size. -/
def start_trading_check (already_running : Bool) : Except String Unit :=
  if already_running then .error "Bot is already running" else .ok ()

/-! ## ProfitCalculator (backend/services/profit_calculator.py) -/

/-- Line 185/186: `buy_fee = (order_size * buy_fee_percent) / 100` -/
def single_trade_buy_fee (buy_config : ExchangeConfig) (order_size : ℚ) : ℚ :=
  (order_size * buy_config.taker) / 100

def single_trade_sell_fee (sell_config : ExchangeConfig) (order_size : ℚ) : ℚ :=
  (order_size * sell_config.taker) / 100

/-- Lines 189-190: withdrawal fee converted to quote units. -/
def single_trade_withdrawal_fee (buy_config : ExchangeConfig) (coin : String)
    (buy_price : ℚ) : ℚ :=
  wf_get buy_config.withdrawal_fees coin * buy_price

/-- Line 193: `network_fee = 0.5`. -/
def network_fee_const : ℚ := 1/2

/-- Lines 196-197: `slippage_cost = (order_size * 0.1) / 100`. -/
def slippage_cost (order_size : ℚ) : ℚ :=
  (order_size * (1/10)) / 100

/-- Line 200: total of the five fee components. -/
def single_trade_total_fees (buy_config sell_config : ExchangeConfig) (coin : String)
    (buy_price order_size : ℚ) : ℚ :=
  single_trade_buy_fee buy_config order_size + single_trade_sell_fee sell_config order_size +
    single_trade_withdrawal_fee buy_config coin buy_price + network_fee_const +
    slippage_cost order_size

/-- Line 206: gross profit before fees. -/
def single_trade_gross_profit (buy_price sell_price order_size : ℚ) : ℚ :=
  ((sell_price - buy_price) / buy_price) * order_size

/-- Line 210: net profit after all fees. -/
def single_trade_net_profit (buy_config sell_config : ExchangeConfig) (coin : String)
    (buy_price sell_price order_size : ℚ) : ℚ :=
  single_trade_gross_profit buy_price sell_price order_size -
    single_trade_total_fees buy_config sell_config coin buy_price order_size

/-- The numeric fields of the dict returned by
`ProfitCalculator._calculate_single_trade` (lines 225-255). -/
structure SingleTrade where
  order_size : ℚ
  buy_price : ℚ
  sell_price : ℚ
  amount_crypto : ℚ
  spread_absolute : ℚ
  spread_percent : ℚ
  buy_trading_fee : ℚ
  sell_trading_fee : ℚ
  withdrawal_fee : ℚ
  network_fee : ℚ
  slippage : ℚ
  total_fees : ℚ
  total_fees_percent : ℚ
  gross_profit : ℚ
  gross_profit_percent : ℚ
  net_profit : ℚ
  net_profit_percent : ℚ
  roi : ℚ
  execution_seconds : ℕ
  is_profitable : Bool
deriving DecidableEq

/-- Embedding of `ProfitCalculator._calculate_single_trade` (lines 163-255), taking the two
exchange configs (the source looks them up and would fail on a missing one). -/
def calculate_single_trade (buy_config sell_config : ExchangeConfig) (coin : String)
    (buy_price sell_price order_size : ℚ) : SingleTrade :=
  let amount_crypto := order_size / buy_price
  let buy_fee := single_trade_buy_fee buy_config order_size
  let sell_fee := single_trade_sell_fee sell_config order_size
  let withdrawal_fee_usdt := single_trade_withdrawal_fee buy_config coin buy_price
  let slippage := slippage_cost order_size
  let total_fees := single_trade_total_fees buy_config sell_config coin buy_price order_size
  let total_fees_percent := (total_fees / order_size) * 100
  let gross_profit := single_trade_gross_profit buy_price sell_price order_size
  let gross_profit_percent := ((sell_price - buy_price) / buy_price) * 100
  let net_profit := single_trade_net_profit buy_config sell_config coin buy_price sell_price order_size
  let net_profit_percent := (net_profit / order_size) * 100
  let execution_time := 5 + buy_config.withdrawal_time + sell_config.deposit_time + 5
  { order_size := order_size
    buy_price := pyRound buy_price 8
    sell_price := pyRound sell_price 8
    amount_crypto := pyRound amount_crypto 8
    spread_absolute := pyRound (sell_price - buy_price) 8
    spread_percent := pyRound gross_profit_percent 3
    buy_trading_fee := pyRound buy_fee 2
    sell_trading_fee := pyRound sell_fee 2
    withdrawal_fee := pyRound withdrawal_fee_usdt 2
    network_fee := pyRound network_fee_const 2
    slippage := pyRound slippage 2
    total_fees := pyRound total_fees 2
    total_fees_percent := pyRound total_fees_percent 3
    gross_profit := pyRound gross_profit 2
    gross_profit_percent := pyRound gross_profit_percent 3
    net_profit := pyRound net_profit 2
    net_profit_percent := pyRound net_profit_percent 3
    roi := pyRound net_profit_percent 2
    execution_seconds := execution_time
    is_profitable := decide (0 < net_profit) }

/-! ## ArbitrageAnalyzer (backend/services/arbitrage_analyzer.py) -/

/-- The dict returned by `ArbitrageAnalyzer._calculate_net_profit`
(lines 283-307). -/
structure AnalyzerNetProfit where
  gross_profit : ℚ
  net_profit : ℚ
  profit_percent : ℚ
  roi : ℚ
  is_profitable : Bool
deriving DecidableEq

/-- Embedding of `ArbitrageAnalyzer._calculate_net_profit` (lines 283-307): same equations
as the scanner's, with rounded output fields; `is_profitable` tests the
unrounded net profit. -/
def analyzer_calculate_net_profit (order_size buy_price sell_price total_fees : ℚ) :
    AnalyzerNetProfit :=
  let gross_profit := ((sell_price - buy_price) / buy_price) * order_size
  let net_profit := gross_profit - total_fees
  let net_profit_percent := (net_profit / order_size) * 100
  let roi := (net_profit / order_size) * 100
  ⟨pyRound gross_profit 2, pyRound net_profit 2, pyRound net_profit_percent 3,
    pyRound roi 2, decide (0 < net_profit)⟩

/-! ## Concrete inputs used to exercise the definitions -/

/-- A one-coin price matrix: BTC quoted on binance (ask 100) and gateio
(bid 102). -/
def demo_prices : List (String × List (String × Quote)) :=
  [("BTC", [("binance", ⟨99, 100, 0, 500000⟩), ("gateio", ⟨102, 103, 0, 600000⟩)])]

/-- The single opportunity `find_opportunities demo_prices (1/2) 1000 true`
produces: buy BTC at 100 on binance, sell at 102 on gateio. -/
def demo_opportunity : Opportunity :=
  { coin := "BTC", buy_exchange := "binance", sell_exchange := "gateio",
    buy_price := 100, sell_price := 102, raw_spread_percent := 2,
    net_profit_percent := 329/200, net_profit_usdt := 329/20, total_fees := 71/20,
    execution_time_seconds := 380, volume_buy := 500000, volume_sell := 600000,
    status := "active" }

/-- A two-coin price matrix whose scan output is in ascending net-profit
order: the BTC candidate (net profit percent 0.245) precedes the ETH
candidate (net profit percent 1.6). -/
def two_coin_prices : List (String × List (String × Quote)) :=
  [("BTC", [("binance", ⟨99, 100, 0, 500000⟩), ("gateio", ⟨1006/10, 103, 0, 600000⟩)]),
   ("ETH", [("binance", ⟨99, 100, 0, 500000⟩), ("gateio", ⟨102, 103, 0, 600000⟩)])]

end AutoFutures

namespace AutoFutures

/-! ## Helper lemmas -/

theorem roundHalfEven_nonneg {x : ℚ} (hx : 0 ≤ x) : 0 ≤ roundHalfEven x := by
  have hf : (0 : ℤ) ≤ ⌊x⌋ := Int.floor_nonneg.mpr hx
  unfold roundHalfEven
  dsimp only
  split_ifs <;> omega

theorem pyRound_nonneg {x : ℚ} (n : ℕ) (hx : 0 ≤ x) : 0 ≤ pyRound x n := by
  unfold pyRound
  apply div_nonneg
  · exact_mod_cast roundHalfEven_nonneg (by positivity)
  · positivity

theorem add_log_eq_take {α : Type} (logs : List α) (entry : α) :
    add_log logs entry = (entry :: logs).take 100 := by
  unfold add_log
  dsimp only
  split_ifs with h
  · rfl
  · exact (List.take_of_length_le (by omega)).symm

theorem add_log_head {α : Type} (logs : List α) (entry : α) :
    (add_log logs entry).head? = some entry := by
  rw [add_log_eq_take, List.take_succ_cons]
  rfl

theorem gec_binance : get_exchange_config "binance" = some binance_config := rfl

theorem gec_gateio : get_exchange_config "gateio" = some gateio_config := rfl

theorem binance_taker : binance_config.taker = 1/10 := rfl

theorem gateio_taker : gateio_config.taker = 2/10 := rfl

theorem wf_binance_btc : wf_get binance_config.withdrawal_fees "BTC" = 5/10000 := rfl

theorem wf_binance_eth : wf_get binance_config.withdrawal_fees "ETH" = 5/1000 := rfl

theorem qnc_btc : quick_network_check "BTC" = true := rfl

theorem qnc_eth : quick_network_check "ETH" = true := rfl

theorem exec_binance_gateio : estimate_execution_time "binance" "gateio" = 380 := rfl

theorem scan_loop_run_of_max_le {ce : ℕ} (h : max_errors ≤ ce) (script : List CycleOutcome) :
    scan_loop_run ce script = (ce, 0) := by
  cases script with
  | nil => rfl
  | cons o rest => simp [scan_loop_run, h]

/-! ## Claim theorems -/

/-- C1: for every valid input with `buyPrice > 0` and `orderSize > 0`, both
net-profit computations (`ArbitrageScanner._calculate_net_profit` and
`ArbitrageAnalyzer._calculate_net_profit`) satisfy
`netProfit = grossProfit - totalFees` with
`grossProfit = ((sellPrice - buyPrice)/buyPrice) * orderSize`, and the
returned `is_profitable` flag is `true` iff the (unrounded) net profit is
strictly positive, with no epsilon tolerance. -/
theorem scanner_net_profit_spec (order_size buy_price sell_price : ℚ) (fees : ScannerFees)
    (hb : 0 < buy_price) (ho : 0 < order_size) :
    (calculate_net_profit order_size buy_price sell_price fees).gross_profit
        = ((sell_price - buy_price) / buy_price) * order_size ∧
    (calculate_net_profit order_size buy_price sell_price fees).net_profit
        = (calculate_net_profit order_size buy_price sell_price fees).gross_profit
            - fees.total_fees ∧
    ((calculate_net_profit order_size buy_price sell_price fees).is_profitable = true
        ↔ 0 < (calculate_net_profit order_size buy_price sell_price fees).net_profit) ∧
    (analyzer_calculate_net_profit order_size buy_price sell_price fees.total_fees).net_profit
        = pyRound (((sell_price - buy_price) / buy_price) * order_size - fees.total_fees) 2 ∧
    ((analyzer_calculate_net_profit order_size buy_price sell_price
        fees.total_fees).is_profitable = true
      ↔ 0 < ((sell_price - buy_price) / buy_price) * order_size - fees.total_fees) := by
  simp [calculate_net_profit, analyzer_calculate_net_profit]

theorem scanner_net_profit_spec_witness :
    (calculate_net_profit 1000 100 102 ⟨none, 4⟩).net_profit
      = (calculate_net_profit 1000 100 102 ⟨none, 4⟩).gross_profit
          - (ScannerFees.mk none 4).total_fees :=
  (scanner_net_profit_spec 1000 100 102 ⟨none, 4⟩ (by norm_num) (by norm_num)).2.1

/-- C2: in the catalog, binance has a 0.1% taker fee and a 0.0005 BTC
withdrawal fee and gateio a 0.2% taker fee; on that pair, with
`buyPrice = 100`, `sellPrice = 102`, `orderSize = 1000`,
`ProfitCalculator._calculate_single_trade` returns `grossProfit = 20`,
`buyFee = 1`, `sellFee = 2`, `withdrawalFee = 0.05`, `networkFee = 0.5`,
`slippage = 1`, `totalFees = 4.55`, `netProfit = 15.45` and
`is_profitable = true`; and in general the total fee is the sum of exactly
those five components. -/
theorem single_trade_btc_scenario :
    get_exchange_config "binance" = some binance_config ∧
    get_exchange_config "gateio" = some gateio_config ∧
    binance_config.taker = 1/10 ∧
    gateio_config.taker = 2/10 ∧
    wf_get binance_config.withdrawal_fees "BTC" = 5/10000 ∧
    (∀ bc sc : ExchangeConfig, ∀ coin : String, ∀ buy_price order_size : ℚ,
      single_trade_total_fees bc sc coin buy_price order_size =
        single_trade_buy_fee bc order_size + single_trade_sell_fee sc order_size +
          single_trade_withdrawal_fee bc coin buy_price + network_fee_const +
          slippage_cost order_size) ∧
    (calculate_single_trade binance_config gateio_config "BTC" 100 102 1000).gross_profit
        = 20 ∧
    (calculate_single_trade binance_config gateio_config "BTC" 100 102 1000).buy_trading_fee
        = 1 ∧
    (calculate_single_trade binance_config gateio_config "BTC" 100 102 1000).sell_trading_fee
        = 2 ∧
    (calculate_single_trade binance_config gateio_config "BTC" 100 102 1000).withdrawal_fee
        = 5/100 ∧
    (calculate_single_trade binance_config gateio_config "BTC" 100 102 1000).network_fee
        = 1/2 ∧
    (calculate_single_trade binance_config gateio_config "BTC" 100 102 1000).slippage
        = 1 ∧
    (calculate_single_trade binance_config gateio_config "BTC" 100 102 1000).total_fees
        = 91/20 ∧
    (calculate_single_trade binance_config gateio_config "BTC" 100 102 1000).net_profit
        = 309/20 ∧
    (calculate_single_trade binance_config gateio_config "BTC" 100 102 1000).is_profitable
        = true := by
  refine ⟨by rfl, by rfl, by rfl, by rfl, by rfl, fun bc sc coin bp os => rfl, ?_⟩
  norm_num [calculate_single_trade, single_trade_buy_fee, single_trade_sell_fee,
    single_trade_withdrawal_fee, single_trade_total_fees, single_trade_gross_profit,
    single_trade_net_profit, network_fee_const, slippage_cost, wf_get,
    binance_config, gateio_config, pyRound, roundHalfEven]

/-- C7: in the continuous scan loop, a successful cycle resets the
consecutive-error counter to zero; once the counter reaches `max_errors = 5`
the loop runs no further cycle; a script of five consecutive failures ends
the loop after exactly those five cycles with counter 5; and after the
session tear-down for a threshold-reaching counter value, `get_scan_status`
reports `is_scanning = false` for that user. -/
theorem scan_error_policy (registry : List String) (user_id : String)
    (hnd : registry.Nodup) (ce : ℕ) (opps : List Opportunity)
    (script rest : List CycleOutcome) :
    scan_cycle_errors ce (.success opps) = 0 ∧
    (max_errors ≤ ce → scan_loop_run ce script = (ce, 0)) ∧
    scan_loop_run 0 (List.replicate 5 .failure ++ rest) = (5, 5) ∧
    (∀ final_errors, max_errors ≤ final_errors →
      get_scan_status_is_scanning (scan_session_after registry user_id final_errors)
        user_id = false) := by
  refine ⟨rfl, fun h => scan_loop_run_of_max_le h script, ?_, ?_⟩
  · simp [List.replicate, scan_loop_run, scan_cycle_errors, max_errors,
      scan_loop_run_of_max_le (le_refl 5) rest]
  · intro fe hfe
    unfold scan_session_after get_scan_status_is_scanning
    rw [if_pos hfe]
    split_ifs with hmem
    · simp [hnd.not_mem_erase]
    · simp [hmem]

theorem scan_error_policy_witness :
    get_scan_status_is_scanning (scan_session_after ["u1"] "u1" 5) "u1" = false :=
  (scan_error_policy ["u1"] "u1" (by simp) 0 [] [] []).2.2.2 5 (by norm_num [max_errors])

/-- C8: the per-user bot log list is a bounded newest-first buffer: after
every append via `_add_log` it has at most 100 entries, the new entry is at
index 0, the result is exactly the newest 100 entries of the extended list
(so eviction happens at the tail), and the live-update snapshot reads the
most recent 10 entries in that newest-first order. -/
theorem log_buffer_bounded {α : Type} (logs : List α) (entry : α) :
    (add_log logs entry).length ≤ 100 ∧
    (add_log logs entry).head? = some entry ∧
    add_log logs entry = (entry :: logs).take 100 ∧
    latest_logs (add_log logs entry) = (add_log logs entry).take 10 := by
  refine ⟨?_, add_log_head logs entry, add_log_eq_take logs entry, rfl⟩
  rw [add_log_eq_take]
  simp [List.length_take]

/-- C9 counterexample: for the unsupported exchange id `"hyperexchange"`,
`_calculate_fees` silently returns a result whose total fees are `0` (the
bare `{'total_fees': 0}` dict) and `_estimate_execution_time` silently
returns the default 600 seconds, instead of rejecting the call. -/
theorem unsupported_exchange_defaults_cex :
    get_exchange_config "hyperexchange" = none ∧
    calculate_fees "hyperexchange" "binance" "BTC" 1000 100 = ⟨none, 0⟩ ∧
    estimate_execution_time "hyperexchange" "binance" = 600 := by
  refine ⟨rfl, ?_, ?_⟩ <;> rfl

/-- C9 amended: invalid inputs are not rejected at the fee/timing call
boundary: for any exchange id with no catalog entry, `_calculate_fees`
returns the bare zero-total result and `_estimate_execution_time` returns
the 600-second default; an unknown coin's withdrawal fee silently defaults
to 0; only `start_trading` rejects (and only the already-running case). -/
theorem unsupported_exchange_behaviour (buy_exchange sell_exchange coin : String)
    (order_size price : ℚ) (h : get_exchange_config buy_exchange = none) :
    calculate_fees buy_exchange sell_exchange coin order_size price = ⟨none, 0⟩ ∧
    estimate_execution_time buy_exchange sell_exchange = 600 ∧
    (∀ fees_list : List (String × ℚ), ∀ c : String,
      fees_list.lookup c = none → wf_get fees_list c = 0) ∧
    start_trading_check true = .error "Bot is already running" := by
  refine ⟨?_, ?_, ?_, rfl⟩
  · unfold calculate_fees
    rw [h]
  · unfold estimate_execution_time
    rw [h]
  · intro fl c hc
    unfold wf_get
    rw [hc]
    rfl

theorem unsupported_exchange_behaviour_witness :
    calculate_fees "hyperex" "binance" "BTC" 1000 100 = ⟨none, 0⟩ :=
  (unsupported_exchange_behaviour "hyperex" "binance" "BTC" 1000 100 (by rfl)).1

/-- C10: for identical inputs, the scanner's fee computation equals the
profitability calculator's total fees minus the slippage term
`orderSize * 0.1 / 100`, and consequently the scanner's net profit for a
candidate exceeds the calculator's net profit by exactly that slippage
cost. -/
theorem scanner_calculator_fee_refinement (buy_exchange sell_exchange coin : String)
    (bc sc : ExchangeConfig) (order_size buy_price sell_price : ℚ)
    (hb : get_exchange_config buy_exchange = some bc)
    (hs : get_exchange_config sell_exchange = some sc) :
    (calculate_fees buy_exchange sell_exchange coin order_size buy_price).total_fees
        = (order_size * bc.taker) / 100 + (order_size * sc.taker) / 100
            + wf_get bc.withdrawal_fees coin * buy_price + 1/2 ∧
    (calculate_fees buy_exchange sell_exchange coin order_size buy_price).total_fees
        = single_trade_total_fees bc sc coin buy_price order_size
            - (order_size * (1/10)) / 100 ∧
    (calculate_net_profit order_size buy_price sell_price
          (calculate_fees buy_exchange sell_exchange coin order_size buy_price)).net_profit
        = single_trade_net_profit bc sc coin buy_price sell_price order_size
            + (order_size * (1/10)) / 100 := by
  unfold calculate_fees
  rw [hb, hs]
  refine ⟨rfl, ?_, ?_⟩
  · unfold single_trade_total_fees single_trade_buy_fee single_trade_sell_fee
      single_trade_withdrawal_fee network_fee_const slippage_cost
    dsimp only
    ring
  · unfold calculate_net_profit single_trade_net_profit single_trade_gross_profit
      single_trade_total_fees single_trade_buy_fee single_trade_sell_fee
      single_trade_withdrawal_fee network_fee_const slippage_cost
    dsimp only
    ring

theorem mem_of_mem_unordered_pairs {α : Type} {l : List α} {a b : α}
    (h : (a, b) ∈ unordered_pairs l) : a ∈ l ∧ b ∈ l := by
  induction l with
  | nil => simp [unordered_pairs] at h
  | cons x xs ih =>
    simp only [unordered_pairs, List.mem_append, List.mem_map] at h
    rcases h with ⟨y, hy, hxy⟩ | h
    · cases hxy
      exact ⟨List.mem_cons_self _ _, List.mem_cons_of_mem _ hy⟩
    · obtain ⟨ha, hb⟩ := ih h
      exact ⟨List.mem_cons_of_mem _ ha, List.mem_cons_of_mem _ hb⟩

theorem not_mem_unordered_pairs_swap {α : Type} {l : List α} (hnd : l.Nodup) {a b : α}
    (h : (a, b) ∈ unordered_pairs l) : (b, a) ∉ unordered_pairs l := by
  induction l with
  | nil => simp [unordered_pairs] at h
  | cons x xs ih =>
    rw [List.nodup_cons] at hnd
    simp only [unordered_pairs, List.mem_append, List.mem_map] at h ⊢
    rcases h with ⟨y, hy, hxy⟩ | h
    · cases hxy
      rintro (⟨z, hz, hzx⟩ | hba)
      · cases hzx
        exact hnd.1 hy
      · exact hnd.1 (mem_of_mem_unordered_pairs hba).2
    · rintro (⟨z, hz, hzx⟩ | hba)
      · cases hzx
        exact hnd.1 (mem_of_mem_unordered_pairs h).2
      · exact ih hnd.2 h hba

theorem count_map_pair_fst {α : Type} [DecidableEq α] (x : α) (xs : List α) (a b : α) :
    ((xs.map fun y => (x, y)).count (a, b)) = if x = a then xs.count b else 0 := by
  induction xs with
  | nil => simp
  | cons z zs ih =>
    simp only [List.map_cons, List.count_cons, ih, beq_iff_eq, Prod.mk.injEq]
    by_cases hx : x = a
    · subst hx
      by_cases hz : z = b <;> simp [hz]
    · simp [hx]

theorem count_unordered_pairs {α : Type} [DecidableEq α] {l : List α} (hnd : l.Nodup)
    {a b : α} (ha : a ∈ l) (hb : b ∈ l) (hab : a ≠ b) :
    (unordered_pairs l).count (a, b) + (unordered_pairs l).count (b, a) = 1 := by
  induction l with
  | nil => simp at ha
  | cons x xs ih =>
    rw [List.nodup_cons] at hnd
    simp only [unordered_pairs, List.count_append, count_map_pair_fst]
    have hzl : ∀ u v : α, u ∉ xs → (unordered_pairs xs).count (u, v) = 0 := fun u v hu =>
      List.count_eq_zero.mpr (fun hm => hu (mem_of_mem_unordered_pairs hm).1)
    have hzr : ∀ u v : α, v ∉ xs → (unordered_pairs xs).count (u, v) = 0 := fun u v hv =>
      List.count_eq_zero.mpr (fun hm => hv (mem_of_mem_unordered_pairs hm).2)
    rcases List.mem_cons.mp ha with rfl | ha'
    · rcases List.mem_cons.mp hb with rfl | hb'
      · exact absurd rfl hab
      · rw [if_pos rfl, if_neg hab, List.count_eq_one_of_mem hnd.2 hb',
          hzl a b hnd.1, hzr b a hnd.1]
    · rcases List.mem_cons.mp hb with rfl | hb'
      · rw [if_neg (fun h : b = a => hab h.symm), if_pos rfl,
          List.count_eq_one_of_mem hnd.2 ha', hzr a b hnd.1, hzl b a hnd.1]
      · have hxa : x ≠ a := fun h => hnd.1 (by rw [h]; exact ha')
        have hxb : x ≠ b := fun h => hnd.1 (by rw [h]; exact hb')
        rw [if_neg hxa, if_neg hxb]
        have := ih hnd.2 ha' hb'
        omega

theorem count_direction_blocks {α : Type} [DecidableEq α] (ps : List (α × α)) {a b : α}
    (hab : a ≠ b) :
    ((ps.flatMap fun p => [(p.1, p.2), (p.2, p.1)]).count (a, b))
      = ps.count (a, b) + ps.count (b, a) := by
  induction ps with
  | nil => simp
  | cons p ps ih =>
    rcases p with ⟨u, v⟩
    rw [List.flatMap_cons, List.count_append, ih]
    simp only [List.count_cons, List.count_nil, beq_iff_eq, Prod.mk.injEq]
    by_cases h1 : u = a ∧ v = b
    · obtain ⟨rfl, rfl⟩ := h1
      simp [hab, fun h : v = u => hab h.symm]
      omega
    · by_cases h2 : u = b ∧ v = a
      · obtain ⟨rfl, rfl⟩ := h2
        simp [hab, fun h : u = v => hab h.symm]
        omega
      · have h2' : ¬(v = a ∧ u = b) := fun h => h2 ⟨h.2, h.1⟩
        simp [h1, h2, h2']

theorem two_mul_length_unordered_pairs {α : Type} (l : List α) :
    2 * (unordered_pairs l).length = l.length * (l.length - 1) := by
  induction l with
  | nil => simp [unordered_pairs]
  | cons x xs ih =>
    simp only [unordered_pairs, List.length_append, List.length_map, List.length_cons,
      Nat.add_sub_cancel, Nat.mul_add, ih]
    cases xs with
    | nil => simp [unordered_pairs]
    | cons y ys =>
      simp only [List.length_cons, Nat.add_sub_cancel]
      ring

theorem length_directed_pairs {α : Type} (l : List α) :
    (directed_pairs l).length = 2 * (unordered_pairs l).length := by
  unfold directed_pairs
  induction unordered_pairs l with
  | nil => simp
  | cons p ps ih => simp [List.flatMap_cons, ih]; omega

/-- C5: for every duplicate-free exchange list, the scanner's pair loops
enumerate each unordered exchange pair exactly once (no A-B/B-A duplicate at
the pair level) and the directional expansion evaluates each of the two
trade directions of each pair exactly once; for 3 exchanges, exactly 6
directional candidates are produced. -/
theorem pair_enumeration (l : List String) (hnd : l.Nodup) :
    (∀ a b : String, a ∈ l → b ∈ l → a ≠ b → (directed_pairs l).count (a, b) = 1) ∧
    (∀ a b : String, ¬ ((a, b) ∈ unordered_pairs l ∧ (b, a) ∈ unordered_pairs l)) ∧
    (l.length = 3 → (directed_pairs l).length = 6) := by
  refine ⟨?_, ?_, ?_⟩
  · intro a b ha hb hab
    unfold directed_pairs
    rw [count_direction_blocks _ hab, count_unordered_pairs hnd ha hb hab]
  · rintro a b ⟨h1, h2⟩
    exact not_mem_unordered_pairs_swap hnd h1 h2
  · intro h3
    have h2 := two_mul_length_unordered_pairs l
    rw [h3] at h2
    rw [length_directed_pairs]
    omega

theorem pair_enumeration_witness :
    (directed_pairs ["binance", "bybit", "okx"]).count ("binance", "okx") = 1 ∧
    (directed_pairs ["binance", "bybit", "okx"]).length = 6 :=
  ⟨(pair_enumeration ["binance", "bybit", "okx"] (by simp)).1 "binance" "okx"
      (by simp) (by simp) (by simp),
    (pair_enumeration ["binance", "bybit", "okx"] (by simp)).2.2 (by simp)⟩

/-- C3: every opportunity produced by `_find_opportunities` satisfies both
filter conditions: its net-profit percent (the rounded image of a
non-negative unrounded value) is at least 0, and its stored raw spread
percent is the rounded image of an unrounded spread that is at least the
configured `min_spread` — so no returned opportunity has a negative
net-profit percent, for any input price matrix. -/
theorem scan_filter_sound (prices : List (String × List (String × Quote)))
    (min_spread order_size : ℚ) (check_network : Bool) (opp : Opportunity)
    (hmem : opp ∈ find_opportunities prices min_spread order_size check_network) :
    0 ≤ opp.net_profit_percent ∧
    ∃ spread, min_spread ≤ spread ∧ opp.raw_spread_percent = pyRound spread 3 := by
  unfold find_opportunities at hmem
  rw [List.mem_flatMap] at hmem
  obtain ⟨cp, -, hmem⟩ := hmem
  split_ifs at hmem
  · simp at hmem
  · rw [List.mem_filterMap] at hmem
    obtain ⟨d, -, heq⟩ := hmem
    unfold eval_candidate at heq
    dsimp only at heq
    split_ifs at heq with h1 h2 h3 h4
    rw [Option.some_inj] at heq
    subst heq
    exact ⟨pyRound_nonneg 3 (le_of_not_lt h3),
      ⟨((d.2.2.bid - d.1.2.ask) / d.1.2.ask) * 100, le_of_not_lt h2, rfl⟩⟩

set_option maxHeartbeats 3200000 in
theorem scan_filter_sound_witness :
    0 ≤ demo_opportunity.net_profit_percent ∧
    ∃ spread, (1/2 : ℚ) ≤ spread ∧ demo_opportunity.raw_spread_percent = pyRound spread 3 :=
  scan_filter_sound demo_prices (1/2) 1000 true demo_opportunity (by
    have p1 : pyRound (100 : ℚ) 8 = 100 := by norm_num [pyRound, roundHalfEven]
    have p2 : pyRound (102 : ℚ) 8 = 102 := by norm_num [pyRound, roundHalfEven]
    have p3 : pyRound (2 : ℚ) 3 = 2 := by norm_num [pyRound, roundHalfEven]
    have p4 : pyRound (329/200 : ℚ) 3 = 329/200 := by norm_num [pyRound, roundHalfEven]
    have p5 : pyRound (329/20 : ℚ) 2 = 329/20 := by norm_num [pyRound, roundHalfEven]
    have p6 : pyRound (71/20 : ℚ) 2 = 71/20 := by norm_num [pyRound, roundHalfEven]
    norm_num [demo_prices, demo_opportunity, find_opportunities, directed_pairs,
      unordered_pairs, eval_candidate, calculate_fees, calculate_net_profit,
      gec_binance, gec_gateio, binance_taker, gateio_taker, wf_binance_btc,
      qnc_btc, exec_binance_gateio, p1, p2, p3, p4, p5, p6,
      List.filterMap_cons, List.filterMap_nil, List.flatMap_cons, List.flatMap_nil])

set_option maxHeartbeats 3200000 in
/-- C4 counterexample: the one-shot `manual_scan` does not sort its result by
net-profit percent: on `two_coin_prices` it returns the BTC opportunity
(net profit percent 0.245) before the ETH opportunity (net profit percent
1.6), so the returned list is not in descending order. -/
theorem manual_scan_unsorted_cex :
    (manual_scan two_coin_prices (1/2) 1000).map (fun o => o.net_profit_percent)
        = [49/200, 8/5] ∧
    ¬ List.Pairwise (fun a b : Opportunity => b.net_profit_percent ≤ a.net_profit_percent)
        (manual_scan two_coin_prices (1/2) 1000) := by
  have hscan : manual_scan two_coin_prices (1/2) 1000 =
      [{ coin := "BTC", buy_exchange := "binance", sell_exchange := "gateio",
         buy_price := 100, sell_price := 1006/10, raw_spread_percent := 3/5,
         net_profit_percent := 49/200, net_profit_usdt := 49/20, total_fees := 71/20,
         execution_time_seconds := 380, volume_buy := 500000, volume_sell := 600000,
         status := "active" },
       { coin := "ETH", buy_exchange := "binance", sell_exchange := "gateio",
         buy_price := 100, sell_price := 102, raw_spread_percent := 2,
         net_profit_percent := 8/5, net_profit_usdt := 16, total_fees := 4,
         execution_time_seconds := 380, volume_buy := 500000, volume_sell := 600000,
         status := "active" }] := by
    have p1 : pyRound (100 : ℚ) 8 = 100 := by norm_num [pyRound, roundHalfEven]
    have p2 : pyRound (102 : ℚ) 8 = 102 := by norm_num [pyRound, roundHalfEven]
    have p3 : pyRound (2 : ℚ) 3 = 2 := by norm_num [pyRound, roundHalfEven]
    have p4 : pyRound (503/5 : ℚ) 8 = 503/5 := by norm_num [pyRound, roundHalfEven]
    have p5 : pyRound (3/5 : ℚ) 3 = 3/5 := by norm_num [pyRound, roundHalfEven]
    have p6 : pyRound (49/200 : ℚ) 3 = 49/200 := by norm_num [pyRound, roundHalfEven]
    have p7 : pyRound (49/20 : ℚ) 2 = 49/20 := by norm_num [pyRound, roundHalfEven]
    have p8 : pyRound (71/20 : ℚ) 2 = 71/20 := by norm_num [pyRound, roundHalfEven]
    have p9 : pyRound (8/5 : ℚ) 3 = 8/5 := by norm_num [pyRound, roundHalfEven]
    have p10 : pyRound (16 : ℚ) 2 = 16 := by norm_num [pyRound, roundHalfEven]
    have p11 : pyRound (4 : ℚ) 2 = 4 := by norm_num [pyRound, roundHalfEven]
    norm_num [two_coin_prices, manual_scan, find_opportunities, directed_pairs,
      unordered_pairs, eval_candidate, calculate_fees, calculate_net_profit,
      gec_binance, gec_gateio, binance_taker, gateio_taker, wf_binance_btc,
      wf_binance_eth, qnc_btc, qnc_eth, exec_binance_gateio,
      p1, p2, p3, p4, p5, p6, p7, p8, p9, p10, p11,
      List.filterMap_cons, List.filterMap_nil, List.flatMap_cons, List.flatMap_nil]
  rw [hscan]
  constructor
  · norm_num
  · intro hpair
    rw [List.pairwise_cons] at hpair
    have := hpair.1 _ (List.mem_cons_self _ _)
    norm_num at this

/-- C6 counterexample: on a sell-leg failure, `_execute_arbitrage` aborts
with an error log and touches neither PnL nor history, but the in-flight
active-trade record is NOT removed from the active-trade set — it remains
there with status "active". -/
theorem sell_leg_failure_keeps_record_cex :
    (execute_arbitrage ⟨[], [], 0, 0, []⟩ "t1" "BTC" "binance" "gateio" 100 102 1000
        .sellFail).active_trades
      = [in_flight_trade "t1" "BTC" "binance" "gateio" 100 1000] ∧
    (execute_arbitrage ⟨[], [], 0, 0, []⟩ "t1" "BTC" "binance" "gateio" 100 102 1000
        .sellFail).logs = [.error, .sell, .transfer, .buy] ∧
    (execute_arbitrage ⟨[], [], 0, 0, []⟩ "t1" "BTC" "binance" "gateio" 100 102 1000
        .sellFail).trade_history = [] ∧
    (execute_arbitrage ⟨[], [], 0, 0, []⟩ "t1" "BTC" "binance" "gateio" 100 102 1000
        .sellFail).total_pnl = 0 :=
  ⟨rfl, rfl, rfl, rfl⟩

/-- C6 amended: on any leg failure the cycle is aborted: an error log entry
is emitted (it is the newest log entry) and neither the PnL accumulator, the
trade count nor the history is touched; the in-flight active-trade record is
removed only on a buy-leg failure — on a transfer- or sell-leg failure it
remains in the user's active-trade set. -/
theorem leg_failure_state_effects (st : EngineState)
    (trade_id coin buy_exchange sell_exchange : String)
    (buy_price sell_price order_size : ℚ) (outcome : LegOutcome)
    (hfail : outcome ≠ .ok) :
    (execute_arbitrage st trade_id coin buy_exchange sell_exchange buy_price sell_price
        order_size outcome).total_pnl = st.total_pnl ∧
    (execute_arbitrage st trade_id coin buy_exchange sell_exchange buy_price sell_price
        order_size outcome).trades_count = st.trades_count ∧
    (execute_arbitrage st trade_id coin buy_exchange sell_exchange buy_price sell_price
        order_size outcome).trade_history = st.trade_history ∧
    (execute_arbitrage st trade_id coin buy_exchange sell_exchange buy_price sell_price
        order_size outcome).logs.head? = some .error ∧
    (outcome = .buyFail →
      (execute_arbitrage st trade_id coin buy_exchange sell_exchange buy_price sell_price
          order_size outcome).active_trades
        = (st.active_trades
            ++ [in_flight_trade trade_id coin buy_exchange sell_exchange buy_price order_size]).erase
              (in_flight_trade trade_id coin buy_exchange sell_exchange buy_price order_size)) ∧
    ((outcome = .transferFail ∨ outcome = .sellFail) →
      (execute_arbitrage st trade_id coin buy_exchange sell_exchange buy_price sell_price
          order_size outcome).active_trades
        = st.active_trades
            ++ [in_flight_trade trade_id coin buy_exchange sell_exchange buy_price order_size]) := by
  cases outcome with
  | ok => exact absurd rfl hfail
  | buyFail =>
      exact ⟨rfl, rfl, rfl, add_log_head _ _, fun _ => rfl,
        fun h => by rcases h with h | h <;> simp at h⟩
  | transferFail =>
      exact ⟨rfl, rfl, rfl, add_log_head _ _, fun h => by simp at h, fun _ => rfl⟩
  | sellFail =>
      exact ⟨rfl, rfl, rfl, add_log_head _ _, fun h => by simp at h, fun _ => rfl⟩

theorem leg_failure_state_effects_witness :
    (execute_arbitrage ⟨[], [], 0, 0, []⟩ "t2" "ETH" "bybit" "okx" 50 51 100
        .transferFail).logs.head? = some .error :=
  (leg_failure_state_effects ⟨[], [], 0, 0, []⟩ "t2" "ETH" "bybit" "okx" 50 51 100
    .transferFail (by simp)).2.2.2.1

/-- C4 amended: the cached-opportunity query `get_opportunities` returns its
list sorted in descending order of `net_profit_percent` (every earlier
element's net-profit percent is at least every later one's); the one-shot
`manual_scan` returns the opportunities in enumeration order and does not
sort them. -/
theorem get_opportunities_sorted (cache : List Opportunity) (limit : ℕ) :
    List.Pairwise (fun a b => b.net_profit_percent ≤ a.net_profit_percent)
      (get_opportunities cache limit) := by
  unfold get_opportunities
  have htrans : ∀ a b c : Opportunity,
      opp_ge a b = true → opp_ge b c = true → opp_ge a c = true := by
    intro a b c hab hbc
    simp only [opp_ge, decide_eq_true_eq] at *
    exact le_trans hbc hab
  have htotal : ∀ a b : Opportunity, (opp_ge a b || opp_ge b a) = true := by
    intro a b
    simp only [opp_ge, Bool.or_eq_true, decide_eq_true_eq]
    exact le_total b.net_profit_percent a.net_profit_percent
  have hp : List.Pairwise
      (fun a b : Opportunity => b.net_profit_percent ≤ a.net_profit_percent)
      (cache.mergeSort opp_ge) :=
    (List.sorted_mergeSort htrans htotal cache).imp
      (fun h => by simpa [opp_ge] using h)
  exact hp.sublist (List.take_sublist _ _)

theorem scanner_calculator_fee_refinement_witness :
    (calculate_fees "binance" "gateio" "BTC" 1000 100).total_fees
        = single_trade_total_fees binance_config gateio_config "BTC" 100 1000
            - ((1000 : ℚ) * (1/10)) / 100 :=
  (scanner_calculator_fee_refinement "binance" "gateio" "BTC" binance_config gateio_config
    1000 100 102 (by rfl) (by rfl)).2.1

end AutoFutures
